import Mathlib

/-!
Shallow embedding of `src/readpe.cpp` (readpe: a Portable Executable
header dumper) and verification of its specification claims.

The program decodes the DOS header, the COFF header and the section
headers of a PE image from a byte buffer and renders them as text.
The embedding below translates the C++ source line by line:

* bytes are `Nat` (hypotheses `< 256` where byte-ness matters);
* the file buffer (`vector<char> buffer_`) is a `List Nat`;
* `memcpy` from `&file_buffer[idx]` has no bounds check in the source,
  so a read beyond the buffer is modelled by an explicit
  out-of-bounds memory oracle `mem : Nat → Nat` (the bytes that happen
  to sit after the storage of the vector);
* `put_time(gmtime(..))` is modelled by an arbitrary renderer
  `gm : Nat → String` (no claim depends on its exact text);
* `exit(1)` / falling off `main` is modelled by the returned exit code.
-/

namespace ReadPE

/-! ### Special processing rules (the `#define`s, readpe.cpp:32-37) -/

def AS_DEC : Nat := 0x01
def AS_HEX : Nat := 0x02
def AS_CHAR : Nat := 0x04
def WITH_TIME : Nat := 0x08
def WITH_FLAG : Nat := 0x10
def WITH_FLAGS : Nat := 0x20

/-- The data of `FieldBase` plus the width of the concrete `Field<T>`
instantiation: `offset_`, `sizeof(T)`, `description_`, `rules_`
(readpe.cpp:63-77, 115-130). -/
structure FieldSpec where
  offset : Nat
  size : Nat
  description : String
  rules : Nat
deriving DecidableEq

/-! ### The flag registry (readpe.cpp:40-59) -/

/-- The relationship between the field, flag and the printed value
(the global `map<pair<string, uint32_t>, string> flags`). -/
def flags : List ((String × Nat) × String) :=
  [ (("02_coff_machine", 0x0000), "IMAGE_FILE_MACHINE_UNKNOWN")
  , (("02_coff_machine", 0x8664), "IMAGE_FILE_MACHINE_AMD64")
  , (("02_coff_machine", 0x014c), "IMAGE_FILE_MACHINE_I386")
  , (("02_coff_machine", 0xaa64), "IMAGE_FILE_MACHINE_ARM64")
  , (("02_coff_machine", 0x0200), "IMAGE_FILE_MACHINE_IA64")
  , (("08_coff_characteristics", 0x0002), "IMAGE_FILE_EXECUTABLE_IMAGE")
  , (("08_coff_characteristics", 0x0020), "IMAGE_FILE_LARGE_ADDRESS_AWARE")
  , (("08_coff_characteristics", 0x0100), "IMAGE_FILE_32BIT_MACHINE")
  , (("08_coff_characteristics", 0x2000), "IMAGE_DLLCHARACTERISTICS_WDM_DRIVER")
  , (("07_section_characteristics", 0x00000020), "IMAGE_SCN_CNT_CODE")
  , (("07_section_characteristics", 0x00000040), "IMAGE_SCN_CNT_INITIALIZED_DATA")
  , (("07_section_characteristics", 0x02000000), "IMAGE_SCN_MEM_DISCARDABLE")
  , (("07_section_characteristics", 0x04000000), "IMAGE_SCN_MEM_NOT_CACHED")
  , (("07_section_characteristics", 0x08000000), "IMAGE_SCN_MEM_NOT_PAGED")
  , (("07_section_characteristics", 0x10000000), "IMAGE_SCN_MEM_SHARED")
  , (("07_section_characteristics", 0x20000000), "IMAGE_SCN_MEM_EXECUTE")
  , (("07_section_characteristics", 0x40000000), "IMAGE_SCN_MEM_READ")
  , (("07_section_characteristics", 0x80000000), "IMAGE_SCN_MEM_WRITE")
  ]

/-- Lookup `flags.at(key)` with `std::map::at` lookup semantics: the exact key,
`none` when absent (the source catches the `out_of_range` throw). -/
def flagsAt (key : String × Nat) : Option String :=
  flags.lookup key

/-! ### Raw byte access (the unchecked `memcpy`, readpe.cpp:179) -/

/-- One byte of the address space: inside the vector it is the element
of the vector, beyond it whatever bytes follow the allocation (`mem`).  The
source indexes `file_buffer[...]` without any bounds check. -/
def byteAt (buf : List Nat) (mem : Nat → Nat) (i : Nat) : Nat :=
  if i < buf.length then buf.getD i 0 else mem i

/-- Little-endian load of `n` bytes starting at `idx`, the effect of
`memcpy(&value_, &file_buffer[idx], n)` on a little-endian machine. -/
def readLE (buf : List Nat) (mem : Nat → Nat) (idx : Nat) : Nat → Nat
  | 0 => 0
  | n + 1 => byteAt buf mem idx + 256 * readLE buf mem (idx + 1) n

/-- Embeds `Field<T>::set_value` (readpe.cpp:175-180): `memcpy` of `sizeof(T)`
bytes at `file_offset + offset_` into `value_`, with no bounds check. -/
def Field.set_value (buf : List Nat) (mem : Nat → Nat) (file_offset : Nat)
    (f : FieldSpec) : Nat :=
  readLE buf mem (file_offset + f.offset) f.size

/-! ### Hexadecimal and character rendering helpers -/

/-- One lowercase hexadecimal digit, as `operator<<` with `std::hex`
produces: `0`-`9` then `a`-`f`. -/
def hexDigitChar (d : Nat) : Char :=
  if d < 10 then Char.ofNat (48 + d) else Char.ofNat (87 + d)

/-- Base-16 digits of `n`, least significant first; the fuel argument
makes the recursion structural. -/
def hexDigitsAux : Nat → Nat → List Nat
  | 0, _ => []
  | fuel + 1, n => if n = 0 then [] else n % 16 :: hexDigitsAux fuel (n / 16)

/-- Base-16 digits of `n`, least significant first (empty for 0). -/
def hexDigitsLE (n : Nat) : List Nat :=
  hexDigitsAux n n

/-- Value of a little-endian base-16 digit list. -/
def ofHexDigitsLE : List Nat → Nat
  | [] => 0
  | d :: ds => d + 16 * ofHexDigitsLE ds

/-- The text `std::ostream` produces for an unsigned integer under
`std::hex`: minimal-length lowercase hexadecimal, most significant
digit first, `"0"` for zero. -/
def natToHex (n : Nat) : String :=
  if n = 0 then "0" else String.mk ((hexDigitsLE n).reverse.map hexDigitChar)

/-- The `hexString` stream of `Field<T>::get_value` (readpe.cpp:135-140):
`0` then a space for a zero value, otherwise `"0x"` then the hex text. -/
def hexStr (v : Nat) : String :=
  if v == 0 then "0 " else "0x" ++ natToHex v

/-- The `charString` stream of `Field<T>::get_value` (readpe.cpp:142-145):
the `sizeof(T)` raw bytes of `value_` in memory order (little-endian),
each reinterpreted as a character. -/
def charStr (size v : Nat) : String :=
  String.mk ((List.range size).map (fun i => Char.ofNat (v / 256 ^ i % 256)))

/-- Embeds `Field<T>::get_value` (readpe.cpp:132-173): rule-driven rendering of
`value_`.  `gm` renders `put_time(gmtime(&timestamp), "%c %Z")`. -/
def Field.get_value (gm : Nat → String) (f : FieldSpec) (v : Nat) : String :=
  let hexString := hexStr v
  let charString := charStr f.size v
  let base :=
    if (f.rules &&& AS_HEX != 0) && (f.rules &&& AS_CHAR != 0) then
      hexString ++ " (" ++ charString ++ ")"
    else if (f.rules &&& AS_DEC != 0) && (f.rules &&& AS_HEX != 0) then
      hexString ++ " (" ++ toString v ++ " bytes)"
    else if f.rules &&& AS_DEC != 0 then
      toString v ++ " "
    else if f.rules &&& AS_HEX != 0 then
      hexString
    else if f.rules &&& AS_CHAR != 0 then
      charString
    else
      ""
  let withTime :=
    if f.rules &&& WITH_TIME != 0 then base ++ "(" ++ gm v ++ ")" else base
  if f.rules &&& WITH_FLAG != 0 then
    -- the `" "` is inserted before `flags.at` is evaluated, so it is
    -- present whether the lookup hits or throws (readpe.cpp:164-170)
    withTime ++ " " ++
      (match flagsAt ("02_coff_machine", v) with
       | some s => s
       | none => "UNKNOWN FLAG MAPPING")
  else
    withTime

/-- 42 spaces: `setw(42) << setfill(' ') << ""` (readpe.cpp:188). -/
def pad42 : String := String.mk (List.replicate 42 ' ')

/-- Embeds `Field<T>::print_characteristics` (readpe.cpp:182-198) as the list of
lines it prints: the heading, then one line per set bit of `value_`
scanned from bit 0 to bit `8*sizeof(T) - 1`. -/
def Field.print_characteristics (label : String) (f : FieldSpec) (v : Nat) :
    List String :=
  "    Characteristics names" ::
    (List.range (f.size * 8)).filterMap (fun i =>
      -- `T mask = 1 << i` is the two-power 2^i for every scanned i
      if v &&& 2 ^ i != 0 then
        some (pad42 ++
          (match flagsAt (label, 2 ^ i) with
           | some s => s
           | none => "UNKNOWN FLAG MAPPING: 0x" ++ natToHex (2 ^ i)))
      else none)

/-! ### FieldMap (readpe.cpp:202-244)

A `FieldMap` is `map<string, unique_ptr<FieldBase>>`; because every key
in the three schemas carries a two-digit numeric code, the
lexicographic key order of `std::map` coincides with the declaration order below, so
the schema is a `List` in that order.  A parsed map pairs each entry
with its decoded `value_`. -/

abbrev FieldMap := List (String × FieldSpec)

abbrev ParsedFieldMap := List (String × FieldSpec × Nat)

/-- Embeds `FieldBase::validate` (readpe.cpp:93-97): healthy unless the
description is empty. -/
def FieldBase.validate (f : FieldSpec) : Bool :=
  !(f.description == "")

/-- Embeds `FieldMap::validate` (readpe.cpp:210-214): `all_of` over the per-field
`validate()`.  (The source runs the `all_of` with
`execution::par`; parallel evaluation of a pure predicate has the same
result as the fold.) -/
def FieldMap.validate (m : ParsedFieldMap) : Bool :=
  m.all (fun e => FieldBase.validate e.2.1)

/-- Embeds `FieldMap::parse` (readpe.cpp:216-222): `set_value` every field from
the buffer at `file_offset_`. -/
def FieldMap.parse (buf : List Nat) (mem : Nat → Nat) (file_offset : Nat)
    (schema : FieldMap) : ParsedFieldMap :=
  schema.map (fun e => (e.1, e.2, Field.set_value buf mem file_offset e.2))

/-- Evaluates `this->at(key)->get_value()` on a parsed map (`std::map::at`; every
key used by the source is present, so the `none` arm is never taken
for the real schemas). -/
def FieldMap.atValue (gm : Nat → String) (m : ParsedFieldMap) (key : String) :
    String :=
  match m.lookup key with
  | some fv => Field.get_value gm fv.1 fv.2
  | none => ""

/-- Evaluates `dynamic_cast<Field<T>&>(*this->at(key)).value_` on a parsed map. -/
def FieldMap.valueOf (m : ParsedFieldMap) (key : String) : Nat :=
  match m.lookup key with
  | some fv => fv.2
  | none => 0

/-- Left-justified width-34 output: `setfill(' ') << left << setw(34)`
(readpe.cpp:233-235). -/
def padTo34 (s : String) : String :=
  s ++ String.mk (List.replicate (34 - s.length) ' ')

/-- One iteration of the `FieldMap::print` loop (readpe.cpp:226-242):
skip the field entirely when its rendering is empty, else the primary
line, then the characteristics lines when `WITH_FLAGS` is set. -/
def FieldMap.printField (gm : Nat → String) (label : String) (f : FieldSpec)
    (v : Nat) : List String :=
  if Field.get_value gm f v == "" then []
  else
    ("    " ++ padTo34 (f.description ++ ":") ++ Field.get_value gm f v) ::
      (if f.rules &&& WITH_FLAGS != 0 then
        Field.print_characteristics label f v
      else [])

/-- Embeds `FieldMap::print` (readpe.cpp:225-243) as the list of lines. -/
def FieldMap.print (gm : Nat → String) (m : ParsedFieldMap) : List String :=
  m.flatMap (fun e => FieldMap.printField gm e.1 e.2.1 e.2.2)

/-! ### The DOS header schema (readpe.cpp:250-293) -/

/-- The `DOS_FieldMap` schema (`file_offset_ = 0`).  Keys sort in the
listed order. -/
def dosSchema : FieldMap :=
  [ ("01_dos_e_magic", ⟨0x00, 2, "Magic number", AS_HEX ||| AS_CHAR⟩)
  , ("02_dos_e_cblp", ⟨0x02, 2, "Bytes in last page", AS_DEC⟩)
  , ("03_dos_e_cp", ⟨0x04, 2, "Pages in file", AS_DEC⟩)
  , ("04_dos_e_crlc", ⟨0x06, 2, "Relocations", AS_DEC⟩)
  , ("05_dos_e_cparhdr", ⟨0x08, 2, "Size of header in paragraphs", AS_DEC⟩)
  , ("06_dos_e_minalloc", ⟨0x0A, 2, "Minimum extra paragraphs", AS_DEC⟩)
  , ("07_dos_e_maxalloc", ⟨0x0C, 2, "Maximum extra paragraphs", AS_DEC⟩)
  , ("08_dos_e_ss", ⟨0x0E, 2, "Initial (relative) SS value", AS_DEC⟩)
  , ("09_dos_e_sp", ⟨0x10, 2, "Initial SP value", AS_HEX⟩)
  , ("10_dos_e_ip", ⟨0x14, 2, "Initial IP value", AS_HEX⟩)
  , ("11_dos_e_cs", ⟨0x16, 2, "Initial (relative) CS value", AS_HEX⟩)
  , ("12_dos_e_lfarlc", ⟨0x18, 2, "Address of relocation table", AS_HEX⟩)
  , ("13_dos_e_ovno", ⟨0x1A, 2, "Overlay number", AS_DEC⟩)
  , ("14_dos_e_oemid", ⟨0x24, 2, "OEM identifier", AS_DEC⟩)
  , ("15_dos_e_oeminfo", ⟨0x26, 2, "OEM information", AS_DEC⟩)
  , ("16_dos_e_lfanew", ⟨0x3C, 4, "PE header offset", AS_HEX⟩)
  ]

/-- The `01_dos_e_magic` descriptor (uint16 at offset 0). -/
def magicSpec : FieldSpec := ⟨0x00, 2, "Magic number", AS_HEX ||| AS_CHAR⟩

/-- The `16_dos_e_lfanew` descriptor (uint32 at offset 0x3C). -/
def lfanewSpec : FieldSpec := ⟨0x3C, 4, "PE header offset", AS_HEX⟩

/-- Embeds `DOS_FieldMap::get_exe_header_offset` (readpe.cpp:275-277). -/
def DOS_FieldMap.get_exe_header_offset (m : ParsedFieldMap) : Nat :=
  FieldMap.valueOf m "16_dos_e_lfanew"

/-- Embeds `DOS_FieldMap::validate` (readpe.cpp:279-287): the generic pass, then
the rendering of the magic field must be the literal `"0x5a4d (MZ)"`. -/
def DOS_FieldMap.validate (gm : Nat → String) (m : ParsedFieldMap) : Bool :=
  FieldMap.validate m &&
    (FieldMap.atValue gm m "01_dos_e_magic" == "0x5a4d (MZ)")

/-- Embeds `DOS_FieldMap::print` (readpe.cpp:289-292). -/
def DOS_FieldMap.print (gm : Nat → String) (m : ParsedFieldMap) : List String :=
  "DOS Header" :: FieldMap.print gm m

/-! ### The COFF header schema (readpe.cpp:297-344) -/

/-- The `COFF_FieldMap` schema. -/
def coffSchema : FieldMap :=
  [ ("01_coff_signature", ⟨0x00, 4, "coff_signature", 0⟩)
  , ("02_coff_machine", ⟨0x04, 2, "Machine", AS_HEX ||| WITH_FLAG⟩)
  , ("03_coff_sections", ⟨0x06, 2, "Number of Sections", AS_DEC⟩)
  , ("04_coff_timedatestamp", ⟨0x08, 4, "Date/time stamp", AS_DEC ||| WITH_TIME⟩)
  , ("05_coff_PointerToSymbolTable", ⟨0x0C, 4, "Symbol Table offset", AS_DEC⟩)
  , ("06_coff_NumberOfSymbols", ⟨0x10, 4, "Number of symbols", AS_DEC⟩)
  , ("07_coff_SizeOfOptionalHeader", ⟨0x14, 2, "Size of optional header", AS_HEX⟩)
  , ("08_coff_characteristics", ⟨0x16, 2, "Characteristics", AS_HEX ||| WITH_FLAGS⟩)
  ]

/-- The `02_coff_machine` descriptor (uint16 at offset 4). -/
def machineSpec : FieldSpec := ⟨0x04, 2, "Machine", AS_HEX ||| WITH_FLAG⟩

/-- The `08_coff_characteristics` descriptor (uint16 at offset 0x16). -/
def coffCharSpec : FieldSpec := ⟨0x16, 2, "Characteristics", AS_HEX ||| WITH_FLAGS⟩

/-- Embeds `COFF_FieldMap::get_section_table_offset` (readpe.cpp:316-320):
`file_offset_ + 0x18 + coff_SizeOfOptionalHeader`, returned as
`uint32_t` (hence the reduction modulo 2^32). -/
def COFF_FieldMap.get_section_table_offset (file_offset : Nat)
    (m : ParsedFieldMap) : Nat :=
  (file_offset + 0x18 + FieldMap.valueOf m "07_coff_SizeOfOptionalHeader") %
    4294967296

/-- Embeds `COFF_FieldMap::get_number_of_sections` (readpe.cpp:323-325). -/
def COFF_FieldMap.get_number_of_sections (m : ParsedFieldMap) : Nat :=
  FieldMap.valueOf m "03_coff_sections"

/-- Embeds `COFF_FieldMap::validate` (readpe.cpp:327-338): the generic pass,
then the signature — note the source assigns the `uint32_t` field to a
`uint16_t` local (truncation modulo 2^16) before comparing to
`0x4550`. -/
def COFF_FieldMap.validate (m : ParsedFieldMap) : Bool :=
  FieldMap.validate m &&
    (FieldMap.valueOf m "01_coff_signature" % 65536 == 0x4550)

/-- Embeds `COFF_FieldMap::print` (readpe.cpp:340-343). -/
def COFF_FieldMap.print (gm : Nat → String) (m : ParsedFieldMap) : List String :=
  "COFF/File header" :: FieldMap.print gm m

/-! ### The section header schema (readpe.cpp:348-369) -/

/-- The `Section_FieldMap` schema. -/
def sectionSchema : FieldMap :=
  [ ("01_section_name", ⟨0x00, 8, "    Name", AS_CHAR⟩)
  , ("02_section_virtual_size", ⟨0x08, 4, "    Virtual Size", AS_DEC ||| AS_HEX⟩)
  , ("03_section_virtual_Address", ⟨0x0C, 4, "    Virtual Address", AS_HEX⟩)
  , ("04_section_raw_size", ⟨0x10, 4, "    Size Of Raw Data", AS_DEC ||| AS_HEX⟩)
  , ("05_section_raw_offset", ⟨0x14, 4, "    Pointer To Raw Data", AS_HEX⟩)
  , ("06_section_NumberOfRelocations", ⟨0x20, 2, "    Number Of Relocations", AS_HEX⟩)
  , ("07_section_characteristics", ⟨0x24, 4, "    Characteristics", AS_HEX ||| WITH_FLAGS⟩)
  ]

/-- The `07_section_characteristics` descriptor (uint32 at offset 0x24). -/
def sectCharSpec : FieldSpec := ⟨0x24, 4, "    Characteristics", AS_HEX ||| WITH_FLAGS⟩

/-- Embeds `Section_FieldMap::print` (readpe.cpp:365-368).  `Section_FieldMap`
overrides neither `validate` (it keeps `FieldMap::validate`) nor
anything else. -/
def Section_FieldMap.print (gm : Nat → String) (m : ParsedFieldMap) :
    List String :=
  "    Section" :: FieldMap.print gm m

/-! ### PEFile::print (readpe.cpp:399-433) -/

/-- The section loop of `PEFile::print` (readpe.cpp:422-432), iterating
`count` more times starting at loop index `i`: parse the section at
`section_table_offset + i * 0x28`, abort the whole run with exit code
1 when its validation fails, else print it, an empty line, and
continue.  Returns the printed lines and the process exit code. -/
def PEFile.printSections (buf : List Nat) (mem : Nat → Nat)
    (gm : Nat → String) (stb : Nat) (i : Nat) : Nat → List String × Nat
  | 0 => ([], 0)
  | count + 1 =>
    if !(FieldMap.validate (FieldMap.parse buf mem (stb + i * 0x28) sectionSchema)) then
      (["A section header is invalid"], 1)
    else
      (Section_FieldMap.print gm
          (FieldMap.parse buf mem (stb + i * 0x28) sectionSchema) ++ [""] ++
        (PEFile.printSections buf mem gm stb (i + 1) count).1,
       (PEFile.printSections buf mem gm stb (i + 1) count).2)

/-- The local `dos_field_map_` of `PEFile::print` after its `parse`
(readpe.cpp:400-402). -/
def PEFile.dosMap (buf : List Nat) (mem : Nat → Nat) : ParsedFieldMap :=
  FieldMap.parse buf mem 0 dosSchema

/-- The local `coff_offset` of `PEFile::print` (readpe.cpp:409). -/
def PEFile.coffOffset (buf : List Nat) (mem : Nat → Nat) : Nat :=
  DOS_FieldMap.get_exe_header_offset (PEFile.dosMap buf mem)

/-- The local `coff_header_map` of `PEFile::print` after its `parse`
(readpe.cpp:411-412). -/
def PEFile.coffMap (buf : List Nat) (mem : Nat → Nat) : ParsedFieldMap :=
  FieldMap.parse buf mem (PEFile.coffOffset buf mem) coffSchema

/-- The section-table offset `PEFile::print` hands the section loop
(readpe.cpp:423). -/
def PEFile.sectionTableOffset (buf : List Nat) (mem : Nat → Nat) : Nat :=
  COFF_FieldMap.get_section_table_offset (PEFile.coffOffset buf mem)
    (PEFile.coffMap buf mem)

/-- The loop bound `coff_header_map.get_number_of_sections()`
(readpe.cpp:422). -/
def PEFile.numSections (buf : List Nat) (mem : Nat → Nat) : Nat :=
  COFF_FieldMap.get_number_of_sections (PEFile.coffMap buf mem)

/-- Embeds `PEFile::print` (readpe.cpp:399-433): the fail-fast pipeline
DOS parse → DOS validate → DOS print → COFF parse → COFF validate →
COFF print → section loop.  Returns the printed lines and the process
exit code (`exit(1)` on a validation failure, 0 otherwise). -/
def PEFile.print (buf : List Nat) (mem : Nat → Nat) (gm : Nat → String) :
    List String × Nat :=
  if !(DOS_FieldMap.validate gm (PEFile.dosMap buf mem)) then
    (["The DOS header is invalid"], 1)
  else if !(COFF_FieldMap.validate (PEFile.coffMap buf mem)) then
    (DOS_FieldMap.print gm (PEFile.dosMap buf mem) ++
      ["The COFF header is invalid"], 1)
  else
    (DOS_FieldMap.print gm (PEFile.dosMap buf mem) ++
      COFF_FieldMap.print gm (PEFile.coffMap buf mem) ++ ["Sections"] ++
      (PEFile.printSections buf mem gm (PEFile.sectionTableOffset buf mem) 0
        (PEFile.numSections buf mem)).1,
     (PEFile.printSections buf mem gm (PEFile.sectionTableOffset buf mem) 0
        (PEFile.numSections buf mem)).2)

/-! ### Helper lemmas -/

theorem hexDigitsAux_lt (fuel n : Nat) : ∀ d ∈ hexDigitsAux fuel n, d < 16 := by
  induction fuel generalizing n with
  | zero => intro d hd; simp [hexDigitsAux] at hd
  | succ fuel ih =>
    intro d hd
    unfold hexDigitsAux at hd
    split at hd
    · simp at hd
    · rcases List.mem_cons.mp hd with h | h
      · subst h; exact Nat.mod_lt _ (by omega)
      · exact ih _ _ h

theorem ofHexDigitsLE_hexDigitsAux (fuel n : Nat) (h : n ≤ fuel) :
    ofHexDigitsLE (hexDigitsAux fuel n) = n := by
  induction fuel generalizing n with
  | zero =>
    have : n = 0 := by omega
    subst this; simp [hexDigitsAux, ofHexDigitsLE]
  | succ fuel ih =>
    unfold hexDigitsAux
    split
    · next hz => subst hz; simp [ofHexDigitsLE]
    · next hz =>
      have hn : 0 < n := Nat.pos_of_ne_zero hz
      have hlt : n / 16 < n := Nat.div_lt_self hn (by omega)
      have hdiv : n / 16 ≤ fuel := by omega
      simp only [ofHexDigitsLE, ih _ hdiv]
      omega

/-- The hex digit list really is a base-16 representation of `n`. -/
theorem ofHexDigitsLE_hexDigitsLE (n : Nat) :
    ofHexDigitsLE (hexDigitsLE n) = n :=
  ofHexDigitsLE_hexDigitsAux n n (Nat.le_refl n)

theorem hexDigitsLE_lt (n : Nat) : ∀ d ∈ hexDigitsLE n, d < 16 :=
  hexDigitsAux_lt n n

theorem hexDigitChar_inj (a b : Nat) (ha : a < 16) (hb : b < 16)
    (h : hexDigitChar a = hexDigitChar b) : a = b := by
  interval_cases a <;> interval_cases b <;> revert h <;> decide

/-- String append acts as list append on the character data. -/
theorem str_data_append (s t : String) : (s ++ t).data = s.data ++ t.data :=
  rfl

/-- Rendering a 2-byte `AS_HEX | AS_CHAR` field yields the DOS magic
string exactly for the value `0x5a4d`: the direction used by
the string comparison in `DOS_FieldMap::validate`. -/
theorem magic_get_value_iff (gm : Nat → String) (v : Nat) :
    Field.get_value gm magicSpec v = "0x5a4d (MZ)" ↔ v = 0x5a4d := by
  constructor
  · intro h
    have hunfold : Field.get_value gm magicSpec v =
        hexStr v ++ " (" ++ charStr 2 v ++ ")" := rfl
    rw [hunfold] at h
    by_cases hv : v = 0
    · subst hv
      exact absurd h (by decide)
    · have hhex : hexStr v = "0x" ++ natToHex v := by
        unfold hexStr
        simp [hv]
      have hnat : (natToHex v).data = (hexDigitsLE v).reverse.map hexDigitChar := by
        unfold natToHex
        simp [hv]
      have hdata := congrArg String.data h
      simp only [str_data_append, hhex, hnat] at hdata
      have hchar : (charStr 2 v).data =
          [Char.ofNat (v % 256), Char.ofNat (v / 256 % 256)] := by
        simp [charStr, List.range_succ]
      rw [hchar] at hdata
      simp only [List.append_assoc, List.cons_append, List.nil_append] at hdata
      have hdata2 : (hexDigitsLE v).reverse.map hexDigitChar ++
          [' ', '(', Char.ofNat (v % 256), Char.ofNat (v / 256 % 256), ')'] =
          ['5', 'a', '4', 'd'] ++ [' ', '(', 'M', 'Z', ')'] := by
        have h3 := hdata
        simp only [List.cons.injEq] at h3
        simpa using h3.2.2
      have hsplit := List.append_inj' hdata2 rfl
      have hmap : (hexDigitsLE v).reverse.map hexDigitChar = ['5', 'a', '4', 'd'] :=
        hsplit.1
      have hlt : ∀ d ∈ (hexDigitsLE v).reverse, d < 16 := by
        intro d hd
        exact hexDigitsLE_lt v d (List.mem_reverse.mp hd)
      have hlen : (hexDigitsLE v).reverse.length = 4 := by
        rw [← List.length_map (hexDigitsLE v).reverse hexDigitChar, hmap]
        rfl
      obtain ⟨a, b, c, d, hrev⟩ : ∃ a b c d,
          (hexDigitsLE v).reverse = [a, b, c, d] := by
        match hl : (hexDigitsLE v).reverse with
        | [a, b, c, d] => exact ⟨a, b, c, d, rfl⟩
        | [] | [_] | [_, _] | [_, _, _] => rw [hl] at hlen; simp at hlen
        | _ :: _ :: _ :: _ :: _ :: _ => rw [hl] at hlen; simp at hlen
      rw [hrev] at hmap hlt
      simp only [List.map_cons, List.map_nil, List.cons.injEq, and_true] at hmap
      have ha : a = 5 := hexDigitChar_inj a 5 (hlt a (by simp)) (by omega)
        (by rw [hmap.1]; decide)
      have hb : b = 10 := hexDigitChar_inj b 10 (hlt b (by simp)) (by omega)
        (by rw [hmap.2.1]; decide)
      have hc : c = 4 := hexDigitChar_inj c 4 (hlt c (by simp)) (by omega)
        (by rw [hmap.2.2.1]; decide)
      have hd : d = 13 := hexDigitChar_inj d 13 (hlt d (by simp)) (by omega)
        (by rw [hmap.2.2.2]; decide)
      have hdig : hexDigitsLE v = [13, 4, 10, 5] := by
        have := congrArg List.reverse hrev
        rw [List.reverse_reverse] at this
        rw [this, ha, hb, hc, hd]
        rfl
      have := ofHexDigitsLE_hexDigitsLE v
      rw [hdig] at this
      simp [ofHexDigitsLE] at this
      omega
  · intro h
    subst h
    rfl

/-- The generic `FieldMap::validate` over a freshly parsed map depends
only on the descriptions in the schema. -/
theorem validate_parse (buf : List Nat) (mem : Nat → Nat) (fo : Nat)
    (schema : FieldMap) :
    FieldMap.validate (FieldMap.parse buf mem fo schema) =
      schema.all (fun e => FieldBase.validate e.2) := by
  induction schema with
  | nil => rfl
  | cons e es ih =>
    simp only [FieldMap.validate, FieldMap.parse, List.map_cons, List.all_cons]
      at ih ⊢
    rw [ih]

/-- The generic validation of a freshly parsed section map is `true`
for every buffer and base offset: the descriptions in the section
schema are non-empty constants and no other check exists. -/
theorem sectionValidate_true (buf : List Nat) (mem : Nat → Nat) (fo : Nat) :
    FieldMap.validate (FieldMap.parse buf mem fo sectionSchema) = true := by
  rw [validate_parse]
  decide

set_option maxRecDepth 4000 in
/-- The section loop never aborts (every section validates) and
processes exactly the requested count, parsing iteration `i + k` at
base `stb + (i + k) * 0x28` and exiting with code 0. -/
theorem printSections_eq (buf : List Nat) (mem : Nat → Nat)
    (gm : Nat → String) (stb : Nat) : ∀ n i,
    PEFile.printSections buf mem gm stb i n =
      ((List.range n).flatMap (fun k =>
        Section_FieldMap.print gm
          (FieldMap.parse buf mem (stb + (i + k) * 0x28) sectionSchema) ++ [""]),
       0) := by
  intro n
  induction n with
  | zero => intro i; rfl
  | succ n ih =>
    intro i
    unfold PEFile.printSections
    rw [sectionValidate_true, ih (i + 1), List.range_succ_eq_map]
    simp only [Bool.not_true, Bool.false_eq_true, if_false, List.flatMap_cons,
      List.flatMap_map]
    have harg : ∀ k, i + 1 + k = i + (k + 1) := fun k => by omega
    simp only [harg, Nat.add_zero, Function.comp_def, List.append_assoc]

/-- Every line printed by `FieldMap::print` begins with a space (the
primary lines are padded with four spaces, the characteristics
heading starts with four spaces, and the flag lines start with 42
spaces). -/
theorem printField_space (gm : Nat → String) (label : String) (f : FieldSpec)
    (v : Nat) : ∀ s ∈ FieldMap.printField gm label f v,
      s.data.head? = some ' ' := by
  intro s hs
  unfold FieldMap.printField at hs
  split at hs
  · simp at hs
  · rcases List.mem_cons.mp hs with h | h
    · subst h
      rfl
    · split at h
      · unfold Field.print_characteristics at h
        rcases List.mem_cons.mp h with h2 | h2
        · subst h2; rfl
        · obtain ⟨i, _, hi⟩ := List.mem_filterMap.mp h2
          split at hi
          · cases hi
            rfl
          · cases hi
      · simp at h

theorem print_space (gm : Nat → String) (m : ParsedFieldMap) :
    ∀ s ∈ FieldMap.print gm m, s.data.head? = some ' ' := by
  intro s hs
  obtain ⟨e, _, he⟩ := List.mem_flatMap.mp hs
  exact printField_space gm e.1 e.2.1 e.2.2 s he

/-- A `filterMap` whose function is a guarded `some` is the `map` of the
`filter`. -/
theorem filterMap_guard {α β : Type} (p : α → Bool) (g : α → β) :
    ∀ l : List α,
      l.filterMap (fun a => if p a then some (g a) else none) =
        (l.filter p).map g := by
  intro l
  induction l with
  | nil => rfl
  | cons a t ih =>
    by_cases h : p a <;>
      simp [List.filterMap_cons, List.filter_cons, h, ih]

/-- The loop guard `value_ & mask` with `mask = 2^i` tests bit `i`. -/
theorem and_two_pow_ne (v i : Nat) : (v &&& 2 ^ i != 0) = v.testBit i := by
  rw [Nat.and_two_pow]
  cases h : v.testBit i <;> simp [h, Nat.pos_iff_ne_zero.mp (Nat.two_pow_pos i)]

/-- No line printed for a field equals the section-failure message
(every field line begins with a space, the message with `A`). -/
theorem not_mem_fieldmap_print (gm : Nat → String) (m : ParsedFieldMap) :
    "A section header is invalid" ∉ FieldMap.print gm m := by
  intro h
  exact absurd (print_space gm m _ h) (by decide)

/-! ### The claims -/

/-- C1: the claim says a field whose byte range exceeds the buffer makes
`FieldMap::parse` / `Field::set_value` fail with `OutOfBounds` and
never turns out-of-range bytes into a field value.  The code has no
bounds check at all: `set_value` `memcpy`s from past the end of the
vector, so the field value is exactly the out-of-range bytes (here the
two bytes after an empty buffer, supplied by the memory oracle), and
parse has no failure path.  This theorem evaluates the code at the
failing input: parsing the DOS magic from an empty buffer yields a
value built from out-of-range memory. -/
theorem C1_unchecked_read :
    (∀ mem : Nat → Nat,
      FieldMap.valueOf (FieldMap.parse [] mem 0 dosSchema) "01_dos_e_magic" =
        mem 0 + 256 * mem 1)
    ∧ FieldMap.valueOf (FieldMap.parse [] (fun _ => 0x41) 0 dosSchema)
        "01_dos_e_magic" = 0x4141 := by
  constructor
  · intro mem
    show Field.set_value [] mem 0 magicSpec = mem 0 + 256 * mem 1
    simp [Field.set_value, readLE, byteAt, magicSpec]
  · decide

/-- C2 counterexample: a buffer whose 4 bytes at the COFF base are
`50 45 01 01` — not `50 45 00 00` — still passes COFF validation,
because the code truncates the 32-bit signature to `uint16_t` before
comparing it to `0x4550`.  The claim "any buffer with a different
4-byte value there fails COFF validation" is false. -/
theorem C2_counterexample :
    COFF_FieldMap.validate
      (FieldMap.parse [0x50, 0x45, 0x01, 0x01] (fun _ => 0) 0 coffSchema) = true
    ∧ FieldMap.valueOf
        (FieldMap.parse [0x50, 0x45, 0x01, 0x01] (fun _ => 0) 0 coffSchema)
        "01_coff_signature" = 0x01014550 := by
  exact ⟨by decide, by decide⟩

/-- C2 (amended): COFF validation passes iff the two bytes at the COFF
base offset are `50 45` (the low 16 bits of the little-endian
signature equal `0x4550`); the bytes at offsets +2 and +3 are ignored
by the `uint16_t` truncation in `COFF_FieldMap::validate`. -/
theorem C2_coff_validate (buf : List Nat) (mem : Nat → Nat) (fo : Nat)
    (h0 : byteAt buf mem fo < 256) (h1 : byteAt buf mem (fo + 1) < 256) :
    COFF_FieldMap.validate (FieldMap.parse buf mem fo coffSchema) = true ↔
      (byteAt buf mem fo = 0x50 ∧ byteAt buf mem (fo + 1) = 0x45) := by
  have hgen : FieldMap.validate (FieldMap.parse buf mem fo coffSchema) = true := by
    rw [validate_parse]; decide
  have hval : FieldMap.valueOf (FieldMap.parse buf mem fo coffSchema)
      "01_coff_signature" = readLE buf mem (fo + 0x00) 4 := rfl
  unfold COFF_FieldMap.validate
  rw [hgen, hval]
  simp only [Bool.true_and, beq_iff_eq]
  simp only [readLE, Nat.add_zero]
  omega

/-- Witness for the amended theorem of C2 at the concrete buffer
`50 45 00 00`. -/
theorem C2_coff_validate_witness :
    byteAt [0x50, 0x45, 0x00, 0x00] (fun _ => 0) 0 < 256 ∧
    byteAt [0x50, 0x45, 0x00, 0x00] (fun _ => 0) (0 + 1) < 256 ∧
    (COFF_FieldMap.validate
        (FieldMap.parse [0x50, 0x45, 0x00, 0x00] (fun _ => 0) 0 coffSchema) = true ↔
      (byteAt [0x50, 0x45, 0x00, 0x00] (fun _ => 0) 0 = 0x50 ∧
        byteAt [0x50, 0x45, 0x00, 0x00] (fun _ => 0) (0 + 1) = 0x45)) :=
  ⟨by decide, by decide,
    C2_coff_validate [0x50, 0x45, 0x00, 0x00] (fun _ => 0) 0
      (by decide) (by decide)⟩

/-- C3 counterexample: the claim says the hex rule renders the value 0
as the one-character string `"0"`; the code renders it as `"0 "`
(a zero followed by a space, readpe.cpp:137), exercised here on the
`u32` hex field `16_dos_e_lfanew` decoded from four zero bytes. -/
theorem C3_counterexample :
    Field.set_value (List.replicate 0x40 0) (fun _ => 0) 0 lfanewSpec = 0
    ∧ Field.get_value (fun _ => "") lfanewSpec 0 = "0 "
    ∧ Field.get_value (fun _ => "") lfanewSpec 0 ≠ "0" := by
  exact ⟨by decide, by decide, by decide⟩

/-- C3 (amended): a `u32` field decoded from 4 bytes holds their
little-endian value; rendering under the hex rule alone produces
`"0x"` followed by the lowercase base-16 digits of the value when it
is non-zero (witnessed by the digit/value round-trip), and the
two-character string `"0 "` — zero then a space — when the value is
zero. -/
theorem C3_hex_render (gm : Nat → String) :
    (∀ buf mem fo, Field.set_value buf mem fo lfanewSpec =
      byteAt buf mem (fo + 0x3C) +
        256 * byteAt buf mem (fo + 0x3C + 1) +
        65536 * byteAt buf mem (fo + 0x3C + 1 + 1) +
        16777216 * byteAt buf mem (fo + 0x3C + 1 + 1 + 1))
    ∧ (∀ v : Nat, Field.get_value gm lfanewSpec v =
        if v = 0 then "0 " else "0x" ++ natToHex v)
    ∧ (∀ v : Nat, v ≠ 0 → (natToHex v).data =
        ((hexDigitsLE v).reverse.map hexDigitChar))
    ∧ (∀ v : Nat, ofHexDigitsLE (hexDigitsLE v) = v)
    ∧ (∀ v : Nat, ∀ d ∈ hexDigitsLE v, d < 16) := by
  refine ⟨?_, ?_, ?_, ofHexDigitsLE_hexDigitsLE, hexDigitsLE_lt⟩
  · intro buf mem fo
    simp [Field.set_value, lfanewSpec, readLE]
    ring
  · intro v
    show hexStr v = _
    unfold hexStr
    by_cases h : v = 0
    · simp [h]
    · simp [h]
  · intro v h
    unfold natToHex
    simp [h]

/-- Witness for the amended theorem of C3 at the non-zero value
`0x1a2b`. -/
theorem C3_hex_render_witness :
    Field.get_value (fun _ => "") lfanewSpec 0x1a2b = "0x1a2b"
    ∧ (0x1a2b : Nat) ≠ 0
    ∧ (natToHex 0x1a2b).data =
        ((hexDigitsLE 0x1a2b).reverse.map hexDigitChar) := by
  refine ⟨?_, by decide, (C3_hex_render (fun _ => "")).2.2.1 0x1a2b (by decide)⟩
  have h := (C3_hex_render (fun _ => "")).2.1 0x1a2b
  rw [h]
  decide

/-- C4: DOS header validation passes iff the two bytes at offsets 0 and
1 are `4D 5A` (the magic field then renders as `"0x5a4d (MZ)"`); any
other two bytes fail validation.  Stated over the byte actually read
by the unchecked load (`byteAt`), which is the buffer byte whenever
the buffer holds at least two bytes. -/
theorem C4_dos_validate (gm : Nat → String) (buf : List Nat) (mem : Nat → Nat)
    (h0 : byteAt buf mem 0 < 256) :
    DOS_FieldMap.validate gm (FieldMap.parse buf mem 0 dosSchema) = true ↔
      (byteAt buf mem 0 = 0x4D ∧ byteAt buf mem 1 = 0x5A) := by
  have hgen : FieldMap.validate (FieldMap.parse buf mem 0 dosSchema) = true := by
    rw [validate_parse]; decide
  have hat : FieldMap.atValue gm (FieldMap.parse buf mem 0 dosSchema)
      "01_dos_e_magic" =
      Field.get_value gm magicSpec (Field.set_value buf mem 0 magicSpec) := rfl
  unfold DOS_FieldMap.validate
  rw [hgen, hat]
  simp only [Bool.true_and, beq_iff_eq]
  rw [magic_get_value_iff]
  have hsv : Field.set_value buf mem 0 magicSpec =
      byteAt buf mem 0 + 256 * (byteAt buf mem 1 + 256 * 0) := by
    simp [Field.set_value, magicSpec, readLE]
  rw [hsv]
  omega

/-- Witness for C4 at the concrete buffer `4D 5A`. -/
theorem C4_dos_validate_witness :
    byteAt [0x4D, 0x5A] (fun _ => 0) 0 < 256 ∧
    (DOS_FieldMap.validate (fun _ => "")
        (FieldMap.parse [0x4D, 0x5A] (fun _ => 0) 0 dosSchema) = true ↔
      (byteAt [0x4D, 0x5A] (fun _ => 0) 0 = 0x4D ∧
        byteAt [0x4D, 0x5A] (fun _ => 0) 1 = 0x5A)) :=
  ⟨by decide, C4_dos_validate (fun _ => "") [0x4D, 0x5A] (fun _ => 0) (by decide)⟩

/-- C5: the header-chain offsets are computed exactly as the claim
states: the COFF base is `dos base (0) + decoded e_lfanew`; the
section-table base is `coff_base + 0x18 + decoded SizeOfOptionalHeader`
(reduced modulo 2^32 by the `uint32_t` return, the identity whenever
the sum is in range); and section `i` of the loop is parsed at
`section_table_base + i * 0x28`. -/
theorem C5_offset_chain (buf : List Nat) (mem : Nat → Nat) (gm : Nat → String) :
    PEFile.coffOffset buf mem = 0 + Field.set_value buf mem 0 lfanewSpec
    ∧ (PEFile.coffOffset buf mem + 0x18 +
        FieldMap.valueOf (PEFile.coffMap buf mem) "07_coff_SizeOfOptionalHeader" <
          4294967296 →
      PEFile.sectionTableOffset buf mem =
        PEFile.coffOffset buf mem + 0x18 +
          FieldMap.valueOf (PEFile.coffMap buf mem) "07_coff_SizeOfOptionalHeader")
    ∧ (∀ n, PEFile.printSections buf mem gm (PEFile.sectionTableOffset buf mem) 0 n =
        ((List.range n).flatMap (fun i =>
          Section_FieldMap.print gm
            (FieldMap.parse buf mem
              (PEFile.sectionTableOffset buf mem + i * 0x28) sectionSchema) ++
            [""]),
         0)) := by
  refine ⟨?_, ?_, ?_⟩
  · rw [Nat.zero_add]
    rfl
  · intro h
    unfold PEFile.sectionTableOffset COFF_FieldMap.get_section_table_offset
    exact Nat.mod_eq_of_lt h
  · intro n
    rw [printSections_eq]
    simp [Nat.zero_add]

/-- The concrete buffer of the C5 spec example: a DOS header with
`e_lfanew = 0x80`, a COFF header at `0x80` with `NumberOfSections = 3`
and `SizeOfOptionalHeader = 0xE0`. -/
def bufC5 : List Nat :=
  List.replicate 0x3C 0 ++ [0x80, 0, 0, 0] ++ List.replicate 0x40 0 ++
    [0x50, 0x45, 0, 0, 0, 0, 3, 0] ++ List.replicate 12 0 ++ [0xE0, 0, 0, 0]

set_option maxRecDepth 40000 in
/-- Witness for C5 at the spec example: `e_lfanew = 0x80` gives COFF
base `0x80`; `SizeOfOptionalHeader = 0xE0` gives section-table base
`0x178`; 3 sections sit at `0x178`, `0x1A0`, `0x1C8`. -/
theorem C5_offset_chain_witness :
    (PEFile.coffOffset bufC5 (fun _ => 0) = 0x80
      ∧ FieldMap.valueOf (PEFile.coffMap bufC5 (fun _ => 0))
          "07_coff_SizeOfOptionalHeader" = 0xE0
      ∧ PEFile.numSections bufC5 (fun _ => 0) = 3
      ∧ PEFile.coffOffset bufC5 (fun _ => 0) + 0x18 +
          FieldMap.valueOf (PEFile.coffMap bufC5 (fun _ => 0))
            "07_coff_SizeOfOptionalHeader" < 4294967296)
    ∧ PEFile.sectionTableOffset bufC5 (fun _ => 0) = 0x178
    ∧ [0x178 + 0 * 0x28, 0x178 + 1 * 0x28, 0x178 + 2 * 0x28] =
        [0x178, 0x1A0, 0x1C8] := by
  refine ⟨by decide, ?_, by decide⟩
  have h := (C5_offset_chain bufC5 (fun _ => 0) (fun _ => "")).2.1 (by decide)
  rw [h]
  decide

/-- C6: processing is fail-fast.  If DOS validation fails the whole
output of the run is the DOS-invalid report and the exit code is 1 — no
COFF output exists; if COFF validation fails the output ends at the
COFF-invalid report with exit code 1 — no section output exists; and
when both validate, the section loop runs to completion (section
validation cannot fail, see C9) printing every section, with no retry
or partial-success path anywhere. -/
theorem C6_fail_fast (buf : List Nat) (mem : Nat → Nat) (gm : Nat → String) :
    (DOS_FieldMap.validate gm (PEFile.dosMap buf mem) = false →
      PEFile.print buf mem gm = (["The DOS header is invalid"], 1))
    ∧ (DOS_FieldMap.validate gm (PEFile.dosMap buf mem) = true →
        COFF_FieldMap.validate (PEFile.coffMap buf mem) = false →
      PEFile.print buf mem gm =
        (DOS_FieldMap.print gm (PEFile.dosMap buf mem) ++
          ["The COFF header is invalid"], 1))
    ∧ (DOS_FieldMap.validate gm (PEFile.dosMap buf mem) = true →
        COFF_FieldMap.validate (PEFile.coffMap buf mem) = true →
      PEFile.print buf mem gm =
        (DOS_FieldMap.print gm (PEFile.dosMap buf mem) ++
          COFF_FieldMap.print gm (PEFile.coffMap buf mem) ++ ["Sections"] ++
          ((List.range (PEFile.numSections buf mem)).flatMap (fun i =>
            Section_FieldMap.print gm
              (FieldMap.parse buf mem
                (PEFile.sectionTableOffset buf mem + i * 0x28) sectionSchema) ++
              [""])),
         0)) := by
  refine ⟨?_, ?_, ?_⟩
  · intro hdos
    unfold PEFile.print
    rw [hdos]
    rfl
  · intro hdos hcoff
    unfold PEFile.print
    rw [hdos, hcoff]
    rfl
  · intro hdos hcoff
    unfold PEFile.print
    rw [hdos, hcoff, printSections_eq]
    simp [Nat.zero_add]

/-- Witness for C6 at an empty buffer (backed by zero out-of-range
memory), whose DOS magic value 0 fails validation. -/
theorem C6_fail_fast_witness :
    PEFile.print [] (fun _ => 0) (fun _ => "") =
      (["The DOS header is invalid"], 1) :=
  (C6_fail_fast [] (fun _ => 0) (fun _ => "")).1 (by decide)

/-- C7: multi-flag rendering scans the bit positions of the value in
ascending order and emits one line per set bit — the symbolic name of
the bit from the registry under the given key, or the explicit
`UNKNOWN FLAG MAPPING` marker with the raw hex value of the bit on a miss —
and no line for unset bits.  In particular the characteristics value
`0x0122` against the registry entries for `0x0002`, `0x0020`, `0x0100`
emits exactly those three names in that order, and the unregistered
bit `0x0008` emits the unknown marker carrying `0x8`. -/
theorem C7_multi_flag (label : String) (f : FieldSpec) (v : Nat) :
    Field.print_characteristics label f v =
      "    Characteristics names" ::
        ((List.range (f.size * 8)).filter (fun i => v.testBit i)).map (fun i =>
          pad42 ++
            (match flagsAt (label, 2 ^ i) with
             | some s => s
             | none => "UNKNOWN FLAG MAPPING: 0x" ++ natToHex (2 ^ i)))
    ∧ List.Sorted (· < ·) ((List.range (f.size * 8)).filter (fun i => v.testBit i))
    ∧ Field.print_characteristics "08_coff_characteristics" coffCharSpec 0x0122 =
        [ "    Characteristics names"
        , pad42 ++ "IMAGE_FILE_EXECUTABLE_IMAGE"
        , pad42 ++ "IMAGE_FILE_LARGE_ADDRESS_AWARE"
        , pad42 ++ "IMAGE_FILE_32BIT_MACHINE" ]
    ∧ Field.print_characteristics "08_coff_characteristics" coffCharSpec 0x0008 =
        [ "    Characteristics names", pad42 ++ "UNKNOWN FLAG MAPPING: 0x8" ] := by
  refine ⟨?_, ?_, by decide, by decide⟩
  · unfold Field.print_characteristics
    rw [filterMap_guard (fun i => v &&& 2 ^ i != 0)]
    simp only [and_two_pow_ne]
  · exact (List.pairwise_lt_range _).filter _

/-- C8: exactly one field in the three schemas requests single-flag
decoding — the COFF machine field, whose table-assigned key is
`02_coff_machine` — and its rendering looks the whole value up in the
registry under that key (the key the code names, which is the name of
this very field); a registry miss is not an error: the value still renders,
followed by the explicit `UNKNOWN FLAG MAPPING` marker. -/
theorem C8_single_flag :
    ((dosSchema ++ coffSchema ++ sectionSchema).filter
        (fun e => e.2.rules &&& WITH_FLAG != 0)).map (fun e => e.1) =
      ["02_coff_machine"]
    ∧ ("02_coff_machine", machineSpec) ∈ coffSchema
    ∧ (∀ gm v, Field.get_value gm machineSpec v =
        hexStr v ++ " " ++
          (match flagsAt ("02_coff_machine", v) with
           | some s => s
           | none => "UNKNOWN FLAG MAPPING"))
    ∧ Field.get_value (fun _ => "") machineSpec 0x8664 =
        "0x8664 IMAGE_FILE_MACHINE_AMD64"
    ∧ flagsAt ("02_coff_machine", 0x1234) = none
    ∧ Field.get_value (fun _ => "") machineSpec 0x1234 =
        "0x1234 UNKNOWN FLAG MAPPING" :=
  ⟨by decide, by decide, fun gm v => rfl, by decide, by decide, by decide⟩

/-- Helper for C9: the section-failure report is in no output of
`PEFile::print`. -/
theorem section_invalid_not_mem (buf : List Nat) (mem : Nat → Nat)
    (gm : Nat → String) :
    "A section header is invalid" ∉ (PEFile.print buf mem gm).1 := by
  unfold PEFile.print
  split
  · decide
  · split
    · intro h
      rcases List.mem_append.mp h with h | h
      · rcases List.mem_cons.mp h with h | h
        · exact absurd h (by decide)
        · exact not_mem_fieldmap_print gm _ h
      · exact absurd h (by decide)
    · intro h
      rw [printSections_eq] at h
      simp only [List.append_assoc] at h
      rcases List.mem_append.mp h with h | h
      · rcases List.mem_cons.mp h with h | h
        · exact absurd h (by decide)
        · exact not_mem_fieldmap_print gm _ h
      · rcases List.mem_append.mp h with h | h
      -- the COFF lines
        · rcases List.mem_cons.mp h with h | h
          · exact absurd h (by decide)
          · exact not_mem_fieldmap_print gm _ h
        · rcases List.mem_append.mp h with h | h
          · exact absurd h (by decide)
          · obtain ⟨k, _, hk⟩ := List.mem_flatMap.mp h
            rcases List.mem_append.mp hk with h2 | h2
            · rcases List.mem_cons.mp h2 with h2 | h2
              · exact absurd h2 (by decide)
              · exact not_mem_fieldmap_print gm _ h2
            · exact absurd h2 (by decide)

/-- C9: section validation is the generic pass over the fixed section
schema, whose descriptions are non-empty constants, so it returns
`true` for every buffer and every base offset; consequently the
"A section header is invalid" abort branch of `PEFile::print` is
unreachable — every line of every output differs from that report. -/
theorem C9_section_always_valid :
    (∀ buf mem fo,
      FieldMap.validate (FieldMap.parse buf mem fo sectionSchema) = true)
    ∧ (∀ buf mem gm,
      (PEFile.print buf mem gm).1.all
        (fun s => !(s == "A section header is invalid")) = true) := by
  refine ⟨sectionValidate_true, ?_⟩
  intro buf mem gm
  rw [List.all_eq_true]
  intro s hs
  rcases eq_or_ne s "A section header is invalid" with h | h
  · exact absurd (h ▸ hs) (section_invalid_not_mem buf mem gm)
  · simpa using h

/-- C10: every field whose rules include multi-flag decoding (the COFF
and section characteristics fields) prints the heading line
`    Characteristics names` right after its primary line, for every
value — including value 0, where the heading is followed by no flag
line at all. -/
theorem C10_heading :
    ("08_coff_characteristics", coffCharSpec) ∈ coffSchema
    ∧ ("07_section_characteristics", sectCharSpec) ∈ sectionSchema
    ∧ (∀ gm v, FieldMap.printField gm "08_coff_characteristics" coffCharSpec v =
        ("    " ++ padTo34 (coffCharSpec.description ++ ":") ++
            Field.get_value gm coffCharSpec v) ::
          Field.print_characteristics "08_coff_characteristics" coffCharSpec v)
    ∧ (∀ gm v, FieldMap.printField gm "07_section_characteristics" sectCharSpec v =
        ("    " ++ padTo34 (sectCharSpec.description ++ ":") ++
            Field.get_value gm sectCharSpec v) ::
          Field.print_characteristics "07_section_characteristics" sectCharSpec v)
    ∧ (∀ gm, FieldMap.printField gm "08_coff_characteristics" coffCharSpec 0 =
        [ "    " ++ padTo34 (coffCharSpec.description ++ ":") ++ "0 "
        , "    Characteristics names" ])
    ∧ (∀ gm, FieldMap.printField gm "07_section_characteristics" sectCharSpec 0 =
        [ "    " ++ padTo34 (sectCharSpec.description ++ ":") ++ "0 "
        , "    Characteristics names" ]) := by
  have hox : ∀ s : String, (("0x" ++ s) == "") = false := by
    intro s
    refine beq_eq_false_iff_ne.mpr ?_
    intro h
    have h2 := congrArg String.data h
    rw [str_data_append] at h2
    exact absurd h2 (by simp [show ("0x").data = ['0', 'x'] from rfl])
  have hnon : ∀ v : Nat, (hexStr v == "") = false := by
    intro v
    unfold hexStr
    cases h : (v == 0) <;> simp only [if_true, if_false, Bool.false_eq_true]
    · exact hox _
    · decide
  have hne8 : ∀ (gm : Nat → String) (v : Nat),
      (Field.get_value gm coffCharSpec v == "") = false := fun gm v => hnon v
  have hne7 : ∀ (gm : Nat → String) (v : Nat),
      (Field.get_value gm sectCharSpec v == "") = false := fun gm v => hnon v
  refine ⟨by decide, by decide, ?_, ?_, fun gm => rfl, fun gm => rfl⟩
  · intro gm v
    unfold FieldMap.printField
    simp only [hne8, Bool.false_eq_true, if_false]
    rfl
  · intro gm v
    unfold FieldMap.printField
    simp only [hne7, Bool.false_eq_true, if_false]
    rfl

end ReadPE
